import Mathlib

/-!
Shallow embedding of the analytics and AI-chat core of the etuh-app backend
(`src/models/offer_analytics.py`, `src/models/analytics.py`,
`src/models/ai_chat.py`, `src/models/user.py`, `src/routes/ai_chat.py`),
together with theorems settling the specification claims about it.

Database tables are modelled as Lean lists of row structures; SQL SELECT
with `fetchone` over a key becomes a list search, SQL INSERT an append and
SQL UPDATE a map over the matching rows.  Dates are abstract `Nat` values
(the code always works with a single `today` value per call).  External
lookups (the `users` table city column, the `offers` table business_id
column) are passed in as functions.
-/

namespace EtuhApp

/-! ### offer_analytics rows (src/models/offer_analytics.py)

One row of the `offer_analytics` table, as created and updated by
`OfferAnalytics.track_offer_interaction` and `OfferAnalytics.track_conversion`. -/

structure OfferAnalyticsRow where
  offer_id : Nat
  date : Nat
  views : Nat
  clicks : Nat
  conversions : Nat
  conversion_calls : Nat
  conversion_directions : Nat
  conversion_website : Nat
  user_id : Option Nat
  user_city : Option String
deriving DecidableEq

abbrev OfferAnalyticsTable := List OfferAnalyticsRow

/-- SQL COALESCE(a, b): keep `a` when it is non-null, else `b`. -/
def coalesce {α : Type} : Option α → Option α → Option α
  | some a, _ => some a
  | none, b => b

/-- `OfferAnalytics._is_user_already_tracked_today`: `SELECT id FROM offer_analytics
WHERE offer_id = %s AND user_id = %s AND date = %s` followed by `fetchone`;
reports true iff a row was found. -/
def is_user_already_tracked_today (table : OfferAnalyticsTable)
    (offer_id user_id event_date : Nat) : Bool :=
  table.any fun r =>
    decide (r.offer_id = offer_id ∧ r.user_id = some user_id ∧ r.date = event_date)

/-- The three typed-conversion counters, target of the `conversion_field_mapping`
dict in both `track_conversion` and `_has_user_converted_today`. -/
inductive ConvField where
  | website
  | call
  | directions
deriving DecidableEq

/-- The `conversion_field_mapping` dict: `'website' ↦ conversion_website`,
`'call' ↦ conversion_calls`, `'directions' ↦ conversion_directions`, anything
else absent. -/
def conversion_field_mapping (conversion_type : String) : Option ConvField :=
  if conversion_type = "website" then some ConvField.website
  else if conversion_type = "call" then some ConvField.call
  else if conversion_type = "directions" then some ConvField.directions
  else none

/-- Read the counter column a `ConvField` names. -/
def ConvField.get : ConvField → OfferAnalyticsRow → Nat
  | .website, r => r.conversion_website
  | .call, r => r.conversion_calls
  | .directions, r => r.conversion_directions

/-- SQL `SET {field} = {field} + 1` for the counter column a `ConvField` names. -/
def ConvField.bump : ConvField → OfferAnalyticsRow → OfferAnalyticsRow
  | .website, r => { r with conversion_website := r.conversion_website + 1 }
  | .call, r => { r with conversion_calls := r.conversion_calls + 1 }
  | .directions, r => { r with conversion_directions := r.conversion_directions + 1 }

/-- `OfferAnalytics._has_user_converted_today`: resolves the conversion type via
`conversion_field_mapping` (returning false for an unknown type), then
`SELECT id FROM offer_analytics WHERE offer_id = %s AND user_id = %s AND
date = %s AND {field} > 0` with `fetchone`. -/
def has_user_converted_today (table : OfferAnalyticsTable)
    (offer_id user_id : Nat) (conversion_type : String) (event_date : Nat) : Bool :=
  match conversion_field_mapping conversion_type with
  | none => false
  | some f =>
    table.any fun r =>
      decide (r.offer_id = offer_id ∧ r.user_id = some user_id ∧ r.date = event_date
        ∧ 0 < f.get r)

/-- The all-zero row inserted by both tracking functions when no
(offer_id, date) row exists yet: `INSERT INTO offer_analytics (...) VALUES
(%s, %s, 0, 0, 0, 0, 0, 0, %s, %s, CURRENT_TIMESTAMP)`. -/
def newAnalyticsRow (offer_id today : Nat) (user_id : Option Nat)
    (user_city : Option String) : OfferAnalyticsRow :=
  { offer_id := offer_id, date := today, views := 0, clicks := 0, conversions := 0,
    conversion_calls := 0, conversion_directions := 0, conversion_website := 0,
    user_id := user_id, user_city := user_city }

/-- The check-then-insert step shared by `track_offer_interaction` and
`track_conversion`: `SELECT id ... WHERE offer_id = %s AND date = %s`; if no
row is found, insert `newAnalyticsRow`. -/
def ensure_row_exists (table : OfferAnalyticsTable) (offer_id today : Nat)
    (user_id : Option Nat) (user_city : Option String) : OfferAnalyticsTable :=
  if table.any (fun r => decide (r.offer_id = offer_id ∧ r.date = today)) then table
  else table ++ [newAnalyticsRow offer_id today user_id user_city]

/-- The `field_mapping` dict of `track_offer_interaction`:
`'view' ↦ views`, `'click' ↦ clicks`, `'conversion' ↦ conversions`, anything
else absent.  A mapped value is the `SET {field} = {field} + 1` update. -/
def field_mapping (event_type : String) :
    Option (OfferAnalyticsRow → OfferAnalyticsRow) :=
  if event_type = "view" then some (fun r => { r with views := r.views + 1 })
  else if event_type = "click" then some (fun r => { r with clicks := r.clicks + 1 })
  else if event_type = "conversion" then
    some (fun r => { r with conversions := r.conversions + 1 })
  else none

/-- The final UPDATE of `track_offer_interaction`: bump the mapped counter and
COALESCE user_id / user_city, on every row matching (offer_id, date). -/
def apply_interaction_update (table : OfferAnalyticsTable) (offer_id today : Nat)
    (bump : OfferAnalyticsRow → OfferAnalyticsRow)
    (user_id : Option Nat) (user_city : Option String) : OfferAnalyticsTable :=
  table.map fun r =>
    if r.offer_id = offer_id ∧ r.date = today then
      let r' := bump r
      { r' with user_id := coalesce r'.user_id user_id,
                user_city := coalesce r'.user_city user_city }
    else r

/-- The `if user_id and OfferAnalytics._is_user_already_tracked_today(...)` guard
of `track_offer_interaction` (Python truthiness of `user_id` modelled by
`Option`). -/
def dedup_hit (table : OfferAnalyticsTable) (offer_id : Nat)
    (user_id : Option Nat) (today : Nat) : Bool :=
  match user_id with
  | some u => is_user_already_tracked_today table offer_id u today
  | none => false

/-- `OfferAnalytics.track_offer_interaction(offer_id, user_id, event_type)` at
date `today`, over table state `table`, with `users` giving each user's city
(`_get_user_city`).  Returns the function's boolean result and the new table:
on a dedup hit it returns True without touching the table; otherwise it
ensures the (offer_id, today) row exists, then either returns False (unknown
event type, mapping absent — note the inserted row is kept) or applies the
counter update and returns True. -/
def track_offer_interaction (users : Nat → Option String)
    (table : OfferAnalyticsTable) (offer_id : Nat) (user_id : Option Nat)
    (event_type : String) (today : Nat) : Bool × OfferAnalyticsTable :=
  let user_city := user_id.bind users
  if dedup_hit table offer_id user_id today then (true, table)
  else
    let table1 := ensure_row_exists table offer_id today user_id user_city
    match field_mapping event_type with
    | none => (false, table1)
    | some bump =>
      (true, apply_interaction_update table1 offer_id today bump user_id user_city)

/-- The `if user_id and OfferAnalytics._has_user_converted_today(...)` guard of
`track_conversion`. -/
def conv_dedup_hit (table : OfferAnalyticsTable) (offer_id : Nat)
    (user_id : Option Nat) (conversion_type : String) (today : Nat) : Bool :=
  match user_id with
  | some u => has_user_converted_today table offer_id u conversion_type today
  | none => false

/-- The final UPDATE of `track_conversion`: bump the typed counter AND the
generic `conversions` counter, and COALESCE user_id / user_city, on every row
matching (offer_id, date). -/
def apply_conversion_update (table : OfferAnalyticsTable) (offer_id today : Nat)
    (f : ConvField) (user_id : Option Nat) (user_city : Option String) :
    OfferAnalyticsTable :=
  table.map fun r =>
    if r.offer_id = offer_id ∧ r.date = today then
      let r' := f.bump r
      { r' with conversions := r'.conversions + 1,
                user_id := coalesce r'.user_id user_id,
                user_city := coalesce r'.user_city user_city }
    else r

/-- `OfferAnalytics.track_conversion(offer_id, conversion_type, user_id)` at
date `today` over table state `table`. -/
def track_conversion (users : Nat → Option String) (table : OfferAnalyticsTable)
    (offer_id : Nat) (conversion_type : String) (user_id : Option Nat)
    (today : Nat) : Bool × OfferAnalyticsTable :=
  let user_city := user_id.bind users
  if conv_dedup_hit table offer_id user_id conversion_type today then (true, table)
  else
    let table1 := ensure_row_exists table offer_id today user_id user_city
    match conversion_field_mapping conversion_type with
    | none => (false, table1)
    | some f =>
      (true, apply_conversion_update table1 offer_id today f user_id user_city)

/-- Modelled from the spec's wording of §4.2 for generic events (used only to
compare against the source's dedup check): duplicate iff an aggregate row for
(offer_id, date) already has a non-null user_id set, whoever that user is. -/
def spec_duplicate_generic (table : OfferAnalyticsTable)
    (offer_id event_date : Nat) : Bool :=
  table.any fun r =>
    decide (r.offer_id = offer_id ∧ r.date = event_date ∧ r.user_id ≠ none)

/-- Modelled from the spec's wording of §4.2 for typed conversions (used only to
compare against the source's dedup check): duplicate iff the aggregate row for
(offer_id, date) already has a positive count in the matching
specific-conversion counter, regardless of which user produced it. -/
def spec_duplicate_typed (table : OfferAnalyticsTable) (offer_id : Nat)
    (conversion_type : String) (event_date : Nat) : Bool :=
  match conversion_field_mapping conversion_type with
  | none => false
  | some f =>
    table.any fun r =>
      decide (r.offer_id = offer_id ∧ r.date = event_date ∧ 0 < f.get r)

end EtuhApp

namespace EtuhApp

/-! ### Helper lemmas about the dedup checks and the tracking step -/

/-- The invariant of §3 of the spec relating the generic conversions counter to
the three typed sub-counters, as a check on one aggregate row. -/
def conversionsInvariant (r : OfferAnalyticsRow) : Bool :=
  decide (r.conversions = r.conversion_calls + r.conversion_directions + r.conversion_website)

theorem is_tracked_iff (tbl : OfferAnalyticsTable) (o u d : Nat) :
    is_user_already_tracked_today tbl o u d = true ↔
      ∃ r ∈ tbl, r.offer_id = o ∧ r.date = d ∧ r.user_id = some u := by
  unfold is_user_already_tracked_today
  rw [List.any_eq_true]
  constructor
  · rintro ⟨r, hr, hp⟩
    rw [decide_eq_true_iff] at hp
    exact ⟨r, hr, hp.1, hp.2.2, hp.2.1⟩
  · rintro ⟨r, hr, h1, h2, h3⟩
    exact ⟨r, hr, by simp [h1, h2, h3]⟩

theorem track_dedup_short_circuit (users : Nat → Option String)
    (tbl : OfferAnalyticsTable) (o u d : Nat) (et : String)
    (hd : is_user_already_tracked_today tbl o u d = true) :
    track_offer_interaction users tbl o (some u) et d = (true, tbl) := by
  unfold track_offer_interaction dedup_hit
  simp [hd]

theorem tracked_after_interaction (users : Nat → Option String)
    (t : OfferAnalyticsTable) (o u d : Nat)
    (h : ∀ r ∈ t, r.offer_id = o → r.date = d → r.user_id = none ∨ r.user_id = some u) :
    is_user_already_tracked_today
      (track_offer_interaction users t o (some u) "view" d).2 o u d = true := by
  unfold track_offer_interaction
  cases hde : dedup_hit t o (some u) d
  · have hbump : field_mapping "view" = some (fun r => { r with views := r.views + 1 }) := rfl
    simp only [hde, Bool.false_eq_true, if_false, hbump]
    have hex : ∃ r ∈ ensure_row_exists t o d (some u) ((some u).bind users),
        r.offer_id = o ∧ r.date = d ∧ (r.user_id = none ∨ r.user_id = some u) := by
      unfold ensure_row_exists
      cases hany : t.any (fun r => decide (r.offer_id = o ∧ r.date = d))
      · simp only [hany, Bool.false_eq_true, if_false]
        refine ⟨newAnalyticsRow o d (some u) ((some u).bind users), ?_, ?_⟩
        · exact List.mem_append_right _ (by simp)
        · simp [newAnalyticsRow]
      · simp only [hany, if_true]
        rw [List.any_eq_true] at hany
        obtain ⟨r, hrmem, hrp⟩ := hany
        rw [decide_eq_true_iff] at hrp
        exact ⟨r, hrmem, hrp.1, hrp.2, h r hrmem hrp.1 hrp.2⟩
    obtain ⟨r, hrmem, ho, hdt, hu⟩ := hex
    rw [is_tracked_iff]
    unfold apply_interaction_update
    refine ⟨_, List.mem_map_of_mem _ hrmem, ?_⟩
    rw [if_pos ⟨ho, hdt⟩]
    refine ⟨ho, hdt, ?_⟩
    cases hu with
    | inl h0 => simp [coalesce, h0]
    | inr h1 => simp [coalesce, h1]
  · simp only [hde, if_true]
    simpa [dedup_hit] using hde

end EtuhApp

namespace EtuhApp

/-- C1 (counterexample): the claim "duplicate iff an aggregate row for
(offer_id, date) already has a non-null user_id set — any prior user's event
that day blocks all further counting" is false on the code: with a day's row
carrying user 1, the dedup check for user 2 reports no duplicate (while the
spec-worded predicate reports one), and user 2's view is in fact counted. -/
theorem C1_counterexample :
    is_user_already_tracked_today
        [{ offer_id := 1, date := 0, views := 1, clicks := 0, conversions := 0,
           conversion_calls := 0, conversion_directions := 0, conversion_website := 0,
           user_id := some 1, user_city := none }] 1 2 0 = false
    ∧ spec_duplicate_generic
        [{ offer_id := 1, date := 0, views := 1, clicks := 0, conversions := 0,
           conversion_calls := 0, conversion_directions := 0, conversion_website := 0,
           user_id := some 1, user_city := none }] 1 0 = true
    ∧ (track_offer_interaction (fun _ => none)
        [{ offer_id := 1, date := 0, views := 1, clicks := 0, conversions := 0,
           conversion_calls := 0, conversion_directions := 0, conversion_website := 0,
           user_id := some 1, user_city := none }] 1 (some 2) "view" 0)
      = (true,
         [{ offer_id := 1, date := 0, views := 2, clicks := 0, conversions := 0,
            conversion_calls := 0, conversion_directions := 0, conversion_website := 0,
            user_id := some 1, user_city := none }]) := by decide

/-- C1 (amended): for a generic event carrying a non-null user_id, the Dedup
Guard reports a duplicate iff an aggregate row for (offer_id, date) exists
whose recorded user_id equals THIS user's id — only the user recorded on the
row is blocked, not every user after the first. -/
theorem C1_generic_dedup_matches_recorded_user_only (tbl : OfferAnalyticsTable)
    (o u d : Nat) :
    is_user_already_tracked_today tbl o u d = true ↔
      ∃ r ∈ tbl, r.offer_id = o ∧ r.date = d ∧ r.user_id = some u :=
  is_tracked_iff tbl o u d

/-- C2 (counterexample): the claim "duplicate iff the row for (offer_id, date)
already has a positive matching specific-conversion counter, regardless of
which user produced it" is false on the code: with a day's row carrying user 1
and conversion_website = 1, the dedup check for user 2 reports no duplicate
(while the spec-worded predicate reports one), and user 2's website conversion
is in fact counted. -/
theorem C2_counterexample :
    has_user_converted_today
        [{ offer_id := 1, date := 0, views := 0, clicks := 0, conversions := 1,
           conversion_calls := 0, conversion_directions := 0, conversion_website := 1,
           user_id := some 1, user_city := none }] 1 2 "website" 0 = false
    ∧ spec_duplicate_typed
        [{ offer_id := 1, date := 0, views := 0, clicks := 0, conversions := 1,
           conversion_calls := 0, conversion_directions := 0, conversion_website := 1,
           user_id := some 1, user_city := none }] 1 "website" 0 = true
    ∧ (track_conversion (fun _ => none)
        [{ offer_id := 1, date := 0, views := 0, clicks := 0, conversions := 1,
           conversion_calls := 0, conversion_directions := 0, conversion_website := 1,
           user_id := some 1, user_city := none }] 1 "website" (some 2) 0)
      = (true,
         [{ offer_id := 1, date := 0, views := 0, clicks := 0, conversions := 2,
            conversion_calls := 0, conversion_directions := 0, conversion_website := 2,
            user_id := some 1, user_city := none }]) := by decide

/-- C2 (amended): for a typed conversion carrying a non-null user_id, the Dedup
Guard reports a duplicate iff the conversion type is a known one and an
aggregate row for (offer_id, date) exists whose recorded user_id equals THIS
user's id and whose matching specific-conversion counter is positive; a count
produced while another user's id is recorded on the row blocks nobody else. -/
theorem C2_typed_dedup_matches_recorded_user_only (tbl : OfferAnalyticsTable)
    (o u d : Nat) (ct : String) :
    has_user_converted_today tbl o u ct d = true ↔
      ∃ f, conversion_field_mapping ct = some f ∧
        ∃ r ∈ tbl, r.offer_id = o ∧ r.date = d ∧ r.user_id = some u ∧ 0 < f.get r := by
  unfold has_user_converted_today
  cases hm : conversion_field_mapping ct with
  | none => simp [hm]
  | some f =>
    rw [List.any_eq_true]
    constructor
    · rintro ⟨r, hr, hp⟩
      rw [decide_eq_true_iff] at hp
      exact ⟨f, rfl, r, hr, hp.1, hp.2.2.1, hp.2.1, hp.2.2.2⟩
    · rintro ⟨f', hf', r, hr, h1, h2, h3, h4⟩
      rw [Option.some_inj] at hf'
      subst hf'
      exact ⟨r, hr, by simp [h1, h2, h3, h4]⟩

end EtuhApp

namespace EtuhApp

/-- C6 (counterexample): the claim "submitting the same (offer_id, user_id,
date, view) interaction twice increments the stored views counter at most
once" is false on the code: when the day's aggregate row already carries a
different user's id (user 1), user 2's two identical views are both counted
(views goes 5 → 6 → 7), so the second call does change the counters. -/
theorem C6_counterexample :
    (track_offer_interaction (fun _ => none)
        (track_offer_interaction (fun _ => none)
          [{ offer_id := 1, date := 0, views := 5, clicks := 0, conversions := 0,
             conversion_calls := 0, conversion_directions := 0, conversion_website := 0,
             user_id := some 1, user_city := none }] 1 (some 2) "view" 0).2
        1 (some 2) "view" 0).2
      = [{ offer_id := 1, date := 0, views := 7, clicks := 0, conversions := 0,
           conversion_calls := 0, conversion_directions := 0, conversion_website := 0,
           user_id := some 1, user_city := none }]
    ∧ (track_offer_interaction (fun _ => none)
        [{ offer_id := 1, date := 0, views := 5, clicks := 0, conversions := 0,
           conversion_calls := 0, conversion_directions := 0, conversion_website := 0,
           user_id := some 1, user_city := none }] 1 (some 2) "view" 0).2
      = [{ offer_id := 1, date := 0, views := 6, clicks := 0, conversions := 0,
           conversion_calls := 0, conversion_directions := 0, conversion_website := 0,
           user_id := some 1, user_city := none }] := by decide

/-- C6 (amended): submitting the same (offer_id, user_id, date, view)
interaction twice increments the views counter at most once PROVIDED no
aggregate row for (offer_id, date) carries a different user's id at the start
(in particular from an empty state): the second call then returns True and
leaves the table, hence every counter of the day's row, unchanged. -/
theorem C6_second_view_is_noop_without_foreign_user (users : Nat → Option String)
    (t : OfferAnalyticsTable) (o u d : Nat)
    (h : ∀ r ∈ t, r.offer_id = o → r.date = d → r.user_id = none ∨ r.user_id = some u) :
    track_offer_interaction users
        (track_offer_interaction users t o (some u) "view" d).2 o (some u) "view" d
      = (true, (track_offer_interaction users t o (some u) "view" d).2) :=
  track_dedup_short_circuit users _ o u d "view" (tracked_after_interaction users t o u d h)

/-- C6 witness: the amended idempotence theorem instantiated from the empty
table for user 2, offer 1, date 0. -/
theorem C6_second_view_is_noop_without_foreign_user_witness :
    track_offer_interaction (fun _ => none)
        (track_offer_interaction (fun _ => none) [] 1 (some 2) "view" 0).2 1 (some 2) "view" 0
      = (true, (track_offer_interaction (fun _ => none) [] 1 (some 2) "view" 0).2) :=
  C6_second_view_is_noop_without_foreign_user (fun _ => none) [] 1 2 0 (by simp)

/-- C7: the invariant conversions = conversion_calls + conversion_directions +
conversion_website is not preserved by the tracking operations: an accepted
generic "conversion" event from the empty state yields a row violating it
(conversions = 1, typed sum = 0), while the typed website-conversion path
increments both sides and keeps it. -/
theorem C7_conversions_invariant_not_preserved :
    ((track_offer_interaction (fun _ => none) [] 1 (some 1) "conversion" 0).1 = true
      ∧ (track_offer_interaction (fun _ => none) [] 1 (some 1) "conversion" 0).2.all
          conversionsInvariant = false)
    ∧ ((track_conversion (fun _ => none) [] 1 "website" (some 1) 0).1 = true
      ∧ (track_conversion (fun _ => none) [] 1 "website" (some 1) 0).2.all
          conversionsInvariant = true) := by decide

/-- C10: calling track_offer_interaction with an unknown event type when no
(offer_id, today) aggregate row exists returns False and increments no
counter, yet leaves behind a zero-counter row carrying the given user_id and
the user's city; a subsequent valid "view" by that same user that day is then
treated as a duplicate: it returns True and counts nothing. -/
theorem C10_unknown_event_type_poisons_day (users : Nat → Option String)
    (t : OfferAnalyticsTable) (o u d : Nat) (et : String)
    (het : field_mapping et = none)
    (hno : ∀ r ∈ t, ¬(r.offer_id = o ∧ r.date = d)) :
    track_offer_interaction users t o (some u) et d
        = (false, t ++ [newAnalyticsRow o d (some u) (users u)])
    ∧ track_offer_interaction users (t ++ [newAnalyticsRow o d (some u) (users u)])
          o (some u) "view" d
        = (true, t ++ [newAnalyticsRow o d (some u) (users u)]) := by
  have hkey : t.any (fun r => decide (r.offer_id = o ∧ r.date = d)) = false := by
    rw [List.any_eq_false]
    intro r hr
    simpa using hno r hr
  constructor
  · have hded : dedup_hit t o (some u) d = false := by
      unfold dedup_hit
      rw [Bool.eq_false_iff]
      intro hc
      rw [is_tracked_iff] at hc
      obtain ⟨r, hr, h1, h2, _⟩ := hc
      exact hno r hr ⟨h1, h2⟩
    unfold track_offer_interaction
    simp only [hded, Bool.false_eq_true, if_false, het]
    unfold ensure_row_exists
    simp only [hkey, Bool.false_eq_true, if_false, Option.some_bind]
  · apply track_dedup_short_circuit
    rw [is_tracked_iff]
    refine ⟨newAnalyticsRow o d (some u) (users u),
      List.mem_append_right _ (by simp), ?_⟩
    simp [newAnalyticsRow]

/-- C10 witness: the theorem instantiated with the unknown event type "share"
on the empty table, user 1 with city Espoo, offer 1, date 0. -/
theorem C10_unknown_event_type_poisons_day_witness :
    track_offer_interaction (fun _ => some "Espoo") [] 1 (some 1) "share" 0
        = (false, [] ++ [newAnalyticsRow 1 0 (some 1) (some "Espoo")])
    ∧ track_offer_interaction (fun _ => some "Espoo")
          ([] ++ [newAnalyticsRow 1 0 (some 1) (some "Espoo")]) 1 (some 1) "view" 0
        = (true, [] ++ [newAnalyticsRow 1 0 (some 1) (some "Espoo")]) :=
  C10_unknown_event_type_poisons_day (fun _ => some "Espoo") [] 1 1 0 "share" rfl
    (by simp)

end EtuhApp

namespace EtuhApp

/-! ### String machinery for the offer search (src/models/ai_chat.py)

The SQL city filter and LIKE clauses are embedded over `List Char` with
structurally recursive helpers so that concrete instances evaluate in the
kernel.  `lowerChars` is SQL LOWER, `trimChars` is SQL TRIM of whitespace. -/

def lowerChars (s : List Char) : List Char := s.map Char.toLower

def trimChars (s : List Char) : List Char :=
  ((s.dropWhile Char.isWhitespace).reverse.dropWhile Char.isWhitespace).reverse

/-- Split a character list at commas (the comma-separated fields the regex
`(^|,)\s*X\s*(,|$)` delimits). -/
def splitOnCommaCh : List Char → List (List Char)
  | [] => [[]]
  | c :: rest =>
    let r := splitOnCommaCh rest
    if c = ',' then [] :: r
    else match r with
      | [] => [[c]]
      | f :: fs => (c :: f) :: fs

/-- Drop everything up to and including the first occurrence of `frag`;
`none` when `frag` does not occur. -/
def dropAfterFrag (frag : List Char) : List Char → Option (List Char)
  | [] => if frag.isPrefixOf [] then some [] else none
  | c :: rest =>
    if frag.isPrefixOf (c :: rest) then some ((c :: rest).drop frag.length)
    else dropAfterFrag frag rest

/-- Unanchored POSIX-regex match of the pattern `frag₁.*frag₂.*…*fragₙ`:
the subject contains the literal fragments in order, with arbitrary gaps.
This is the shape of the three bracket/quote regexes in the city filter. -/
def fragsMatch : List (List Char) → List Char → Bool
  | [], _ => true
  | f :: fs, s =>
    match dropAfterFrag f s with
    | none => false
    | some rest => fragsMatch fs rest

/-- SQL `LOWER(a) LIKE LOWER('%needle%')`: case-insensitive substring test. -/
def likeContains (hay needle : String) : Bool :=
  (dropAfterFrag (lowerChars needle.toList) (lowerChars hay.toList)).isSome

/-- The six-way city condition of `AIChat.search_offers_function` on a stored
offer city value, for query city `queryCity`.  In source order:
1. `LOWER(TRIM(o.city)) = 'koko maa'`;
2. `LOWER(TRIM(o.city)) = LOWER(TRIM(%s))`;
3. `LOWER(o.city) ~ ('(^|,)\s*' || LOWER(TRIM(%s)) || '\s*(,|$)')`, i.e. some
   comma-separated field of the lowered stored value trims to the query
   (the query contains no comma or regex metacharacter in the spec's cases);
4. `LOWER(o.city) ~ '\[".*koko maa.*"\]'`;
5. `LOWER(o.city) ~ ('\[".*' || LOWER(TRIM(%s)) || '.*"\]')`;
6. `LOWER(o.city) ~ ('".*' || LOWER(TRIM(%s)) || '.*"')`. -/
def cityMatch (queryCity storedCity : String) : Bool :=
  let q := trimChars (lowerChars queryCity.toList)
  let c := lowerChars storedCity.toList
  let ct := trimChars c
  decide (ct = "koko maa".toList)
  || decide (ct = q)
  || (splitOnCommaCh c).any (fun f => decide (trimChars f = q))
  || fragsMatch ["[\"".toList, "koko maa".toList, "\"]".toList] c
  || fragsMatch ["[\"".toList, q, "\"]".toList] c
  || fragsMatch ["\"".toList, q, "\"".toList] c

/-! ### Offer rows and the Offer Search Tool -/

/-- One row of the `offers` table, restricted to the columns the search reads.
`expires_at` and `created_at` are abstract timestamps. -/
structure OfferRow where
  id : Nat
  title : String
  description : String
  keywords : String
  category : String
  city : String
  status : String
  expires_at : Option Nat
  is_premium : Bool
  created_at : Nat
deriving DecidableEq

/-- The base WHERE clause: `o.status = 'approved' AND (o.expires_at IS NULL OR
o.expires_at >= %s)` with the current time as parameter. -/
def offerEligible (now : Nat) (o : OfferRow) : Bool :=
  decide (o.status = "approved")
    && (match o.expires_at with
        | none => true
        | some e => decide (now ≤ e))

/-- The keywords clause: case-insensitive substring match against title OR
description OR keywords. -/
def keywordsClause (kw : String) (o : OfferRow) : Bool :=
  likeContains o.title kw || likeContains o.description kw
    || likeContains o.keywords kw

/-- The category clause: `LOWER(o.category) = LOWER(%s)`. -/
def categoryClause (cat : String) (o : OfferRow) : Bool :=
  decide (lowerChars o.category.toList = lowerChars cat.toList)

/-- The full dynamically-built WHERE predicate of `search_offers_function`.
A `none` parameter models a Python-falsy argument (absent filter). -/
def searchPred (now : Nat) (category keywords city : Option String)
    (o : OfferRow) : Bool :=
  offerEligible now o
    && (match keywords with
        | none => true
        | some kw => keywordsClause kw o)
    && (match category with
        | none => true
        | some cat => categoryClause cat o)
    && (match city with
        | none => true
        | some qc => cityMatch qc o.city)

/-- The ORDER BY comparison: `o.is_premium DESC, o.created_at DESC` — `a`
sorts no later than `b` when `a` is premium and `b` is not, or they tie on
premium and `a` was created no earlier. -/
def offerOrder (a b : OfferRow) : Bool :=
  if a.is_premium = b.is_premium then decide (b.created_at ≤ a.created_at)
  else decide (a.is_premium = true)

/-- `AIChat.search_offers_function(category, keywords, city)` over database
state `db` at time `now`: filter by the WHERE predicate, sort premium-first
then newest-first, and `LIMIT 10`. -/
def search_offers_function (db : List OfferRow) (now : Nat)
    (category keywords city : Option String) : List OfferRow :=
  (((db.filter (searchPred now category keywords city)).mergeSort offerOrder).take 10)

end EtuhApp

namespace EtuhApp

/-- C3: the city filter of the Offer Search Tool matches a query city of
Helsinki against all four stored representations — plain name, the nationwide
sentinel, a JSON-array string and a comma-separated list — and matches a
query city of Tampere against only the nationwide row. -/
theorem C3_city_filter_representations :
    cityMatch "Helsinki" "Helsinki" = true
    ∧ cityMatch "Helsinki" "koko maa" = true
    ∧ cityMatch "Helsinki" "[\"Espoo\",\"Aura\",\"Helsinki\"]" = true
    ∧ cityMatch "Helsinki" "Espoo,Aura,Helsinki" = true
    ∧ cityMatch "Tampere" "Helsinki" = false
    ∧ cityMatch "Tampere" "koko maa" = true
    ∧ cityMatch "Tampere" "[\"Espoo\",\"Aura\",\"Helsinki\"]" = false
    ∧ cityMatch "Tampere" "Espoo,Aura,Helsinki" = false := by decide

/-- C4: for every database state, time and combination of search parameters,
the Offer Search Tool returns at most 10 results, and every returned offer is
approved with an expires_at that is null or not in the past. -/
theorem C4_search_cap_and_eligibility (db : List OfferRow) (now : Nat)
    (category keywords city : Option String) :
    (search_offers_function db now category keywords city).length ≤ 10
    ∧ ∀ o ∈ search_offers_function db now category keywords city,
        o.status = "approved" ∧ (o.expires_at = none ∨ ∃ e, o.expires_at = some e ∧ now ≤ e) := by
  constructor
  · exact List.length_take_le 10 _
  · intro o ho
    have hmem : o ∈ (db.filter (searchPred now category keywords city)) := by
      have h1 := List.take_subset 10
        ((db.filter (searchPred now category keywords city)).mergeSort offerOrder) ho
      exact List.mem_mergeSort.mp h1
    have hpred : searchPred now category keywords city o = true :=
      (List.mem_filter.mp hmem).2
    unfold searchPred at hpred
    have helig : offerEligible now o = true := by
      rcases Bool.and_eq_true_iff.mp hpred with ⟨h2, _⟩
      rcases Bool.and_eq_true_iff.mp h2 with ⟨h3, _⟩
      exact (Bool.and_eq_true_iff.mp h3).1
    unfold offerEligible at helig
    rcases Bool.and_eq_true_iff.mp helig with ⟨hst, hexp⟩
    refine ⟨by simpa using hst, ?_⟩
    cases he : o.expires_at with
    | none => exact Or.inl rfl
    | some e =>
      rw [he] at hexp
      exact Or.inr ⟨e, rfl, by simpa using hexp⟩

end EtuhApp

namespace EtuhApp

/-! ### Chat Orchestrator (AIChat.process_chat_message)

The language-model exchange is an external collaborator: its observable
outcome is either an exception somewhere in the two-turn exchange
(`apiError`, caught by the function's except block) or a completed exchange
(`reply`), carrying the first turn's text, its optional `search_offers` tool
call, and the text of the follow-up turn used when a tool call occurs. -/

structure SearchArgs where
  category : Option String
  keywords : Option String
  city : Option String
deriving DecidableEq

structure ModelTurn where
  content : String
  toolCall : Option SearchArgs
deriving DecidableEq

inductive LMOutcome where
  | apiError
  | reply (turn : ModelTurn) (finalText : String)
deriving DecidableEq

structure ChatResponse where
  success : Bool
  message : String
  offers : List OfferRow
deriving DecidableEq

/-- The fallback text of the function's except block: English for language
'en', the Finnish variant for every other language value. -/
def exceptionFallback (language : String) : String :=
  if language = "en" then "Sorry, I'm having trouble right now. Please try again later."
  else "Anteeksi, minulla on teknisiä ongelmia. Yritä myöhemmin uudelleen."

/-- The fixed message of the `if not self.openai_client` guard, returned
before the try block regardless of language. -/
def noClientMessage : String := "AI service not available. Please try again later."

/-- `AIChat.process_chat_message(user_message, user_city, language)` over
offer database `db` at time `now`.  `clientAvailable` models whether
credentials were loaded (`self.openai_client` non-None); `outcome` is the
language-model exchange's result.  The function never raises: the construction
is a total Lean function. -/
def process_chat_message (db : List OfferRow) (now : Nat) (clientAvailable : Bool)
    (outcome : LMOutcome) (user_city : Option String) (language : String) :
    ChatResponse :=
  if ¬ clientAvailable then
    { success := false, message := noClientMessage, offers := [] }
  else
    match outcome with
    | .apiError =>
      { success := false, message := exceptionFallback language, offers := [] }
    | .reply turn finalText =>
      match turn.toolCall with
      | some args =>
        let args1 := if user_city.isSome ∧ args.city = none
          then { args with city := user_city } else args
        let offers := search_offers_function db now args1.category args1.keywords args1.city
        { success := true, message := finalText, offers := offers }
      | none => { success := true, message := turn.content, offers := [] }

/-- C9 (counterexample): the claim that every upstream failure yields a
fallback message localized to the requested language is false on the code:
with credentials unavailable and requested language 'fi', the returned
message is the fixed English no-client text — identical to the 'en' case and
different from the Finnish fallback the code itself uses for provider
errors. -/
theorem C9_counterexample :
    process_chat_message [] 0 false LMOutcome.apiError none "fi"
        = { success := false, message := noClientMessage, offers := [] }
    ∧ process_chat_message [] 0 false LMOutcome.apiError none "en"
        = { success := false, message := noClientMessage, offers := [] }
    ∧ exceptionFallback "fi" ≠ noClientMessage := by decide

/-- C9 (amended): process_chat_message never raises (it is total) and on every
upstream failure returns success = false with an empty offer list; the
fallback message is the fixed English no-client text whenever credentials are
unavailable, regardless of language, and the language-dependent fallback
(English for 'en', Finnish otherwise) on a provider or network error during
the exchange. -/
theorem C9_upstream_failure_fallbacks (db : List OfferRow) (now : Nat)
    (outcome : LMOutcome) (user_city : Option String) (language : String) :
    process_chat_message db now false outcome user_city language
        = { success := false, message := noClientMessage, offers := [] }
    ∧ process_chat_message db now true LMOutcome.apiError user_city language
        = { success := false, message := exceptionFallback language, offers := [] } := by
  constructor
  · rfl
  · rfl

end EtuhApp

namespace EtuhApp

/-! ### User quota (src/models/user.py) and the POST /ai-chat route
(src/routes/ai_chat.py)

The authenticated user's quota columns are modelled directly; the route's
JWT guard means the user row exists, so the user-not-found branch of
`check_ai_chat_limit` (which returns False) is outside the model. -/

structure ChatRequestData where
  message : Option String
  userCity : Option String
  language : Option String
deriving DecidableEq

structure UserQuota where
  ai_chat_count : Nat
  ai_chat_date : Option Nat
deriving DecidableEq

/-- `User.check_ai_chat_limit(user_id, daily_limit)`: allow when there is no
previous chat date or it is a new day, else compare the stored count with the
limit. -/
def check_ai_chat_limit (u : UserQuota) (today daily_limit : Nat) : Bool :=
  match u.ai_chat_date with
  | none => true
  | some dt => if dt ≠ today then true else decide (u.ai_chat_count < daily_limit)

/-- `User.increment_ai_chat_usage(user_id)`: `SET ai_chat_count = CASE WHEN
ai_chat_date = %s THEN ai_chat_count + 1 ELSE 1 END, ai_chat_date = %s
RETURNING ai_chat_count`. -/
def increment_ai_chat_usage (u : UserQuota) (today : Nat) : Nat × UserQuota :=
  let newCount := if u.ai_chat_date = some today then u.ai_chat_count + 1 else 1
  (newCount, { ai_chat_count := newCount, ai_chat_date := some today })

/-- `User.get_ai_chat_usage(user_id)`: the effective usage for today — 0 when
there is no previous chat date or it is a new day, else the stored count. -/
def get_ai_chat_usage (u : UserQuota) (today : Nat) : Nat :=
  match u.ai_chat_date with
  | none => 0
  | some dt => if dt ≠ today then 0 else u.ai_chat_count

/-- Python `str.strip()`: drop leading and trailing whitespace. -/
def pyStrip (s : String) : String := ⟨trimChars s.toList⟩

/-- The observable outcome of one `POST /ai-chat` call: HTTP status, response
body fields, whether `process_chat_message` was invoked, how many times
`User.increment_ai_chat_usage` was called, and the user's final quota row. -/
structure RouteResult where
  status : Nat
  success : Bool
  message : String
  offers : List OfferRow
  chatInvoked : Bool
  usageIncrements : Nat
  quota : UserQuota
deriving DecidableEq

/-- The `ai_chat` route handler (`POST /ai-chat`): validate the message (it
must be present and truthy, non-empty after strip, and at most 150
characters), check the daily limit, run `process_chat_message`, and increment
the usage counter only after a successful response. -/
def ai_chat_route (db : List OfferRow) (now : Nat) (clientAvailable : Bool)
    (outcome : LMOutcome) (chat_limit : Nat) (data : Option ChatRequestData)
    (u : UserQuota) (today : Nat) : RouteResult :=
  let fail : Nat → String → RouteResult := fun st msg =>
    { status := st, success := false, message := msg, offers := [],
      chatInvoked := false, usageIncrements := 0, quota := u }
  match data with
  | none => fail 400 "Message is required"
  | some d =>
    match d.message with
    | none => fail 400 "Message is required"
    | some m =>
      if m = "" then fail 400 "Message is required"
      else
        let user_message := pyStrip m
        if user_message = "" then fail 400 "Message cannot be empty"
        else if 150 < user_message.length then
          fail 400 "Message too long. Maximum 150 characters allowed."
        else if ¬ check_ai_chat_limit u today chat_limit then
          fail 429 "Daily chat limit exceeded. Please try again tomorrow."
        else
          let response := process_chat_message db now clientAvailable outcome
            (some (d.userCity.getD "Helsinki")) (d.language.getD "fi")
          if ¬ response.success then
            { status := 500, success := false, message := response.message,
              offers := [], chatInvoked := true, usageIncrements := 0, quota := u }
          else
            { status := 200, success := true, message := response.message,
              offers := response.offers, chatInvoked := true, usageIncrements := 1,
              quota := (increment_ai_chat_usage u today).2 }

end EtuhApp

namespace EtuhApp

/-! ### Claim C8: usage accounting of the POST /ai-chat route -/

theorem usage_after_increment (u : UserQuota) (today : Nat) :
    get_ai_chat_usage (increment_ai_chat_usage u today).2 today
      = get_ai_chat_usage u today + 1 := by
  unfold increment_ai_chat_usage get_ai_chat_usage
  cases hd : u.ai_chat_date with
  | none => simp
  | some dt => by_cases h : dt = today <;> simp [h]

theorem process_reply_success (db : List OfferRow) (now : Nat) (t : ModelTurn)
    (f : String) (uc : Option String) (lg : String) :
    (process_chat_message db now true (LMOutcome.reply t f) uc lg).success = true := by
  cases ht : t.toolCall <;> simp [process_chat_message, ht]

theorem process_no_client (db : List OfferRow) (now : Nat) (o : LMOutcome)
    (uc : Option String) (lg : String) :
    (process_chat_message db now false o uc lg).success = false := rfl

/-- C8: for every POST /ai-chat call, a response with status 200 comes with
exactly one usage increment, the daily-limit check having passed, and an
effective daily usage one higher than before; every non-200 response (failed
validation, exceeded limit, unsuccessful chat) performs zero increments and
leaves the quota row unchanged; the chat exchange is only invoked after the
limit check passes; and the number of increments does not depend on which
tool call, if any, the model made internally. -/
theorem C8_usage_incremented_exactly_once_on_success (db : List OfferRow) (now : Nat) (clientAvailable : Bool)
    (outcome : LMOutcome) (chat_limit : Nat) (data : Option ChatRequestData)
    (u : UserQuota) (today : Nat) :
    ((ai_chat_route db now clientAvailable outcome chat_limit data u today).status = 200 →
        (ai_chat_route db now clientAvailable outcome chat_limit data u today).usageIncrements = 1
        ∧ check_ai_chat_limit u today chat_limit = true
        ∧ get_ai_chat_usage (ai_chat_route db now clientAvailable outcome chat_limit data u today).quota today
            = get_ai_chat_usage u today + 1)
    ∧ ((ai_chat_route db now clientAvailable outcome chat_limit data u today).status ≠ 200 →
        (ai_chat_route db now clientAvailable outcome chat_limit data u today).usageIncrements = 0
        ∧ (ai_chat_route db now clientAvailable outcome chat_limit data u today).quota = u)
    ∧ ((ai_chat_route db now clientAvailable outcome chat_limit data u today).chatInvoked = true →
        check_ai_chat_limit u today chat_limit = true)
    ∧ (∀ t1 t2 : ModelTurn, ∀ f1 f2 : String,
        (ai_chat_route db now clientAvailable (LMOutcome.reply t1 f1) chat_limit data u today).usageIncrements
          = (ai_chat_route db now clientAvailable (LMOutcome.reply t2 f2) chat_limit data u today).usageIncrements) := by
  rcases data with _ | ⟨msg, uc, lang⟩
  · simp [ai_chat_route]
  · rcases msg with _ | m
    · simp [ai_chat_route]
    · simp only [ai_chat_route]
      by_cases h0 : m = ""
      · simp [h0]
      · rw [if_neg h0]
        by_cases h1 : pyStrip m = ""
        · simp [if_neg h0, h1]
        · rw [if_neg h1]
          by_cases h2 : 150 < (pyStrip m).length
          · simp [if_neg h0, if_neg h1, h2]
          · rw [if_neg h2]
            by_cases h3 : check_ai_chat_limit u today chat_limit = true
            · rw [if_neg (not_not_intro h3)]
              refine ⟨?_, ?_, ?_, ?_⟩
              · by_cases h4 : (process_chat_message db now clientAvailable outcome
                    (some (uc.getD "Helsinki")) (lang.getD "fi")).success = true
                · rw [if_neg (not_not_intro h4)]
                  exact fun _ => ⟨rfl, h3, usage_after_increment u today⟩
                · rw [if_pos h4]
                  exact fun h => absurd h (by simp)
              · by_cases h4 : (process_chat_message db now clientAvailable outcome
                    (some (uc.getD "Helsinki")) (lang.getD "fi")).success = true
                · rw [if_neg (not_not_intro h4)]
                  exact fun hne => absurd rfl hne
                · rw [if_pos h4]
                  exact fun _ => ⟨rfl, rfl⟩
              · by_cases h4 : (process_chat_message db now clientAvailable outcome
                    (some (uc.getD "Helsinki")) (lang.getD "fi")).success = true
                · rw [if_neg (not_not_intro h4)]
                  exact fun _ => h3
                · rw [if_pos h4]
                  exact fun _ => h3
              · intro t1 t2 f1 f2
                simp only [if_neg h0, if_neg h1, if_neg h2, if_neg (not_not_intro h3)]
                cases hc : clientAvailable
                · have hp1 : ¬ (process_chat_message db now false (LMOutcome.reply t1 f1)
                      (some (uc.getD "Helsinki")) (lang.getD "fi")).success = true := by
                    rw [process_no_client]; decide
                  have hp2 : ¬ (process_chat_message db now false (LMOutcome.reply t2 f2)
                      (some (uc.getD "Helsinki")) (lang.getD "fi")).success = true := by
                    rw [process_no_client]; decide
                  rw [if_pos hp1, if_pos hp2]
                · have hp1 : ¬ ¬ (process_chat_message db now true (LMOutcome.reply t1 f1)
                      (some (uc.getD "Helsinki")) (lang.getD "fi")).success = true :=
                    not_not_intro (process_reply_success db now t1 f1 _ _)
                  have hp2 : ¬ ¬ (process_chat_message db now true (LMOutcome.reply t2 f2)
                      (some (uc.getD "Helsinki")) (lang.getD "fi")).success = true :=
                    not_not_intro (process_reply_success db now t2 f2 _ _)
                  rw [if_neg hp1, if_neg hp2]
            · simp [if_neg h0, if_neg h1, if_neg h2, h3]


/-- C8 witness: a concrete call (valid 3-character message, fresh quota row,
limit 15, model replying without a tool call) reaches status 200, and the
theorem's success case applies to it. -/
theorem C8_usage_incremented_exactly_once_on_success_witness :
    (ai_chat_route [] 0 true (LMOutcome.reply ⟨"Hei!", none⟩ "x") 15
        (some ⟨some "Moi", none, none⟩) ⟨0, none⟩ 0).usageIncrements = 1
    ∧ check_ai_chat_limit ⟨0, none⟩ 0 15 = true
    ∧ get_ai_chat_usage (ai_chat_route [] 0 true (LMOutcome.reply ⟨"Hei!", none⟩ "x") 15
        (some ⟨some "Moi", none, none⟩) ⟨0, none⟩ 0).quota 0
      = get_ai_chat_usage ⟨0, none⟩ 0 + 1 :=
  (C8_usage_incremented_exactly_once_on_success [] 0 true
      (LMOutcome.reply ⟨"Hei!", none⟩ "x") 15
      (some ⟨some "Moi", none, none⟩) ⟨0, none⟩ 0).1 (by decide)

end EtuhApp

namespace EtuhApp

/-! ### Batch Ingest Path (src/models/analytics.py)

`Analytics.batch_track_events` bulk-inserts the raw events, builds an
in-memory per-offer tally of view/click/conversion counts (a Python dict,
modelled as an insertion-ordered association list), folds it into a
per-business tally via the offers → business_id mapping, and applies each
business's nonzero tally to the `business_analytics` table by
check-then-update-or-insert. -/

structure AnalyticsEvent where
  event_type : String
  session_id : Option String
  user_id : Option Nat
  offer_id : Option Nat
  metadata : Option String
  ip_address : Option String
  user_agent : Option String
deriving DecidableEq

structure BusinessAnalyticsRow where
  business_id : Nat
  date : Nat
  total_views : Nat
  total_clicks : Nat
  total_conversions : Nat
  total_spent : Nat
  active_offers : Nat
deriving DecidableEq

/-- The `{'view': n, 'click': n, 'conversion': n}` tally dict values. -/
structure Tally where
  view : Nat
  click : Nat
  conversion : Nat
deriving DecidableEq

def Tally.zero : Tally := ⟨0, 0, 0⟩

def Tally.add (a b : Tally) : Tally :=
  ⟨a.view + b.view, a.click + b.click, a.conversion + b.conversion⟩

/-- `business_updates[offer_id][event_type] += 1` for a tracked event type. -/
def Tally.bump (t : Tally) (event_type : String) : Tally :=
  if event_type = "view" then { t with view := t.view + 1 }
  else if event_type = "click" then { t with click := t.click + 1 }
  else if event_type = "conversion" then { t with conversion := t.conversion + 1 }
  else t

/-- Whether the tally is all zero (the loop skips a business whose tally has
no positive component). -/
def Tally.isNonzero (t : Tally) : Prop :=
  0 < t.view ∨ 0 < t.click ∨ 0 < t.conversion

instance (t : Tally) : Decidable t.isNonzero := by
  unfold Tally.isNonzero
  infer_instance

/-- A Python dict as an insertion-ordered association list with unique keys
by construction. -/
abbrev TallyDict := List (Nat × Tally)

/-- `if key not in dict: dict[key] = zeros; dict[key][event_type] += 1`. -/
def dictBump (d : TallyDict) (k : Nat) (event_type : String) : TallyDict :=
  match d with
  | [] => [(k, Tally.zero.bump event_type)]
  | (k1, t) :: rest =>
    if k1 = k then (k1, t.bump event_type) :: rest
    else (k1, t) :: dictBump rest k event_type

/-- `if key not in dict: dict[key] = zeros; dict[key] += each component`. -/
def dictAdd (d : TallyDict) (k : Nat) (t : Tally) : TallyDict :=
  match d with
  | [] => [(k, Tally.zero.add t)]
  | (k1, t1) :: rest =>
    if k1 = k then (k1, t1.add t) :: rest
    else (k1, t1) :: dictAdd rest k t

/-- The first loop of `batch_track_events`: fold events into the per-offer
`business_updates` dict; only events with a truthy offer_id and an
event_type among view/click/conversion are tallied. -/
def buildOfferTallies : List AnalyticsEvent → TallyDict → TallyDict
  | [], acc => acc
  | e :: es, acc =>
    let acc1 := match e.offer_id with
      | some o =>
        if e.event_type = "view" ∨ e.event_type = "click" ∨ e.event_type = "conversion"
        then dictBump acc o e.event_type else acc
      | none => acc
    buildOfferTallies es acc1

/-- The grouping loop of `_batch_update_business_analytics`: resolve each
offer to its business via `offers` (`business_mapping.get`; a falsy/missing
business_id drops the entry) and fold the tallies into `business_stats`. -/
def buildBusinessStats (offers : Nat → Option Nat) : TallyDict → TallyDict → TallyDict
  | [], acc => acc
  | (o, t) :: rest, acc =>
    let acc1 := match offers o with
      | some b => dictAdd acc b t
      | none => acc
    buildBusinessStats offers rest acc1

/-- The per-business check-then-update-or-insert of
`_batch_update_business_analytics`: UPDATE adds the tally to every row
matching (business_id, date); INSERT seeds a row with the tally and
total_spent = 0, active_offers = 0. -/
def bumpBusinessRow (t : Tally) (r : BusinessAnalyticsRow) : BusinessAnalyticsRow :=
  { r with total_views := r.total_views + t.view,
           total_clicks := r.total_clicks + t.click,
           total_conversions := r.total_conversions + t.conversion }

def upsertBusinessStats (table : List BusinessAnalyticsRow) (b d : Nat) (t : Tally) :
    List BusinessAnalyticsRow :=
  if table.any (fun r => decide (r.business_id = b ∧ r.date = d)) then
    table.map fun r =>
      if r.business_id = b ∧ r.date = d then bumpBusinessRow t r else r
  else table ++ [⟨b, d, t.view, t.click, t.conversion, 0, 0⟩]

/-- The final loop of `_batch_update_business_analytics`: apply each
business's tally in dict order, skipping all-zero tallies. -/
def applyBusinessStats (d : Nat) :
    TallyDict → List BusinessAnalyticsRow → List BusinessAnalyticsRow
  | [], table => table
  | (b, t) :: rest, table =>
    let table1 := if t.isNonzero then upsertBusinessStats table b d t else table
    applyBusinessStats d rest table1

/-- The state `batch_track_events` touches: the append-only
`analytics_events` store and the `business_analytics` aggregate table. -/
structure AnalyticsState where
  events : List AnalyticsEvent
  business_analytics : List BusinessAnalyticsRow
deriving DecidableEq

/-- `Analytics.batch_track_events(events_data)` at date `d` with offer →
business resolution `offers`: no-op on an empty batch; otherwise bulk-insert
the events and run `_batch_update_business_analytics` (itself a no-op when
the update dict is empty). -/
def batch_track_events (offers : Nat → Option Nat) (events_data : List AnalyticsEvent)
    (d : Nat) (s : AnalyticsState) : AnalyticsState :=
  if events_data = [] then s
  else
    let business_updates := buildOfferTallies events_data []
    let s1 : AnalyticsState := { s with events := s.events ++ events_data }
    if business_updates = [] then s1
    else
      let stats := buildBusinessStats offers business_updates []
      { s1 with business_analytics := applyBusinessStats d stats s1.business_analytics }

/-- Read a business's (total_views, total_clicks, total_conversions) for one
date, summed over all matching rows of the aggregate table. -/
def businessTotals : List BusinessAnalyticsRow → Nat → Nat → Tally
  | [], _, _ => Tally.zero
  | r :: rest, b, d =>
    let t := businessTotals rest b d
    if r.business_id = b ∧ r.date = d
    then ⟨r.total_views + t.view, r.total_clicks + t.click, r.total_conversions + t.conversion⟩
    else t

/-- The tally one event contributes to business `b` under resolution
`offers`: its unit bump when its offer resolves to `b` and its type is
tracked, else zero. -/
def eventUnitTally (offers : Nat → Option Nat) (b : Nat) (e : AnalyticsEvent) : Tally :=
  match e.offer_id with
  | some o =>
    if offers o = some b then
      (if e.event_type = "view" ∨ e.event_type = "click" ∨ e.event_type = "conversion"
       then Tally.zero.bump e.event_type else Tally.zero)
    else Tally.zero
  | none => Tally.zero

/-- The total tally a list of events contributes to business `b`. -/
def eventBusinessTally (offers : Nat → Option Nat) (b : Nat)
    (es : List AnalyticsEvent) : Tally :=
  es.foldr (fun e acc => (eventUnitTally offers b e).add acc) Tally.zero

end EtuhApp
namespace EtuhApp

/-! ### Claim C5: order-independence of the Batch Ingest Path

The proof relates each stage of the pipeline (offer-level dict, business-level
dict, table upserts) to a direct sum over the incoming events, then composes
the stages. -/

@[simp] theorem Tally.add_view (a b : Tally) : (a.add b).view = a.view + b.view := rfl
@[simp] theorem Tally.add_click (a b : Tally) : (a.add b).click = a.click + b.click := rfl
@[simp] theorem Tally.add_conversion (a b : Tally) :
    (a.add b).conversion = a.conversion + b.conversion := rfl
@[simp] theorem Tally.zero_view : Tally.zero.view = 0 := rfl
@[simp] theorem Tally.zero_click : Tally.zero.click = 0 := rfl
@[simp] theorem Tally.zero_conversion : Tally.zero.conversion = 0 := rfl

theorem Tally.eq_iff (a b : Tally) :
    a = b ↔ a.view = b.view ∧ a.click = b.click ∧ a.conversion = b.conversion := by
  cases a
  cases b
  simp

/-- The tally contributed by a single tracked event of the given type. -/
def unitTally (et : String) : Tally :=
  if et = "view" then ⟨1, 0, 0⟩
  else if et = "click" then ⟨0, 1, 0⟩
  else if et = "conversion" then ⟨0, 0, 1⟩
  else ⟨0, 0, 0⟩

theorem Tally.bump_eq_add_unit (t : Tally) (et : String) :
    t.bump et = t.add (unitTally et) := by
  unfold Tally.bump unitTally
  split_ifs <;> (rw [Tally.eq_iff]; simp)

@[simp] theorem Tally.zero_bump (et : String) : Tally.zero.bump et = unitTally et := by
  rw [Tally.bump_eq_add_unit, Tally.eq_iff]
  simp

theorem Tally.add_zero (a : Tally) : a.add Tally.zero = a := by
  rw [Tally.eq_iff]; simp

theorem Tally.zero_add (a : Tally) : Tally.zero.add a = a := by
  rw [Tally.eq_iff]; simp

theorem Tally.eq_zero_of_not_nonzero (t : Tally) (h : ¬ t.isNonzero) : t = Tally.zero := by
  unfold Tally.isNonzero at h
  rw [Tally.eq_iff]
  simp only [Tally.zero_view, Tally.zero_click, Tally.zero_conversion]
  omega

/-- Sum of the tallies stored under key `b` in a business-level dict. -/
def dictKeySum : TallyDict → Nat → Tally
  | [], _ => Tally.zero
  | (k, t) :: rest, b => if k = b then t.add (dictKeySum rest b) else dictKeySum rest b

/-- Sum of the tallies of an offer-level dict whose offers resolve to
business `b`. -/
def offerDictBusinessSum (offers : Nat → Option Nat) : TallyDict → Nat → Tally
  | [], _ => Tally.zero
  | (o, t) :: rest, b =>
    if offers o = some b then t.add (offerDictBusinessSum offers rest b)
    else offerDictBusinessSum offers rest b

theorem dictKeySum_nil (b : Nat) : dictKeySum [] b = Tally.zero := rfl

theorem dictKeySum_cons (k : Nat) (t : Tally) (rest : TallyDict) (b : Nat) :
    dictKeySum ((k, t) :: rest) b
      = if k = b then t.add (dictKeySum rest b) else dictKeySum rest b := rfl

theorem offerDictBusinessSum_nil (offers : Nat → Option Nat) (b : Nat) :
    offerDictBusinessSum offers [] b = Tally.zero := rfl

theorem offerDictBusinessSum_cons (offers : Nat → Option Nat) (o : Nat) (t : Tally)
    (rest : TallyDict) (b : Nat) :
    offerDictBusinessSum offers ((o, t) :: rest) b
      = if offers o = some b then t.add (offerDictBusinessSum offers rest b)
        else offerDictBusinessSum offers rest b := rfl

theorem dictBump_offerSum (offers : Nat → Option Nat) (dic : TallyDict)
    (o : Nat) (et : String) (b : Nat) :
    offerDictBusinessSum offers (dictBump dic o et) b
      = (offerDictBusinessSum offers dic b).add
          (if offers o = some b then unitTally et else Tally.zero) := by
  induction dic with
  | nil =>
    by_cases h : offers o = some b <;>
      (rw [Tally.eq_iff]; simp [dictBump, offerDictBusinessSum, h])
  | cons p rest ih =>
    obtain ⟨k1, t1⟩ := p
    unfold dictBump
    by_cases hk : k1 = o
    · rw [if_pos hk]
      subst hk
      by_cases h : offers k1 = some b <;>
        (rw [Tally.eq_iff];
         simp [offerDictBusinessSum, h, Tally.bump_eq_add_unit] <;> omega)
    · rw [if_neg hk]
      by_cases h : offers k1 = some b <;>
        (rw [Tally.eq_iff]; simp [offerDictBusinessSum, h, ih] <;> omega)

theorem dictAdd_keySum (dic : TallyDict) (k : Nat) (t : Tally) (b : Nat) :
    dictKeySum (dictAdd dic k t) b
      = (dictKeySum dic b).add (if k = b then t else Tally.zero) := by
  induction dic with
  | nil =>
    by_cases h : k = b <;>
      (rw [Tally.eq_iff]; simp [dictAdd, dictKeySum, h])
  | cons p rest ih =>
    obtain ⟨k1, t1⟩ := p
    unfold dictAdd
    by_cases hk : k1 = k
    · rw [if_pos hk]
      subst hk
      by_cases h : k1 = b <;>
        (rw [Tally.eq_iff]; simp [dictKeySum, h] <;> omega)
    · rw [if_neg hk]
      by_cases h : k1 = b <;>
        (rw [Tally.eq_iff]; simp [dictKeySum, h, ih] <;> omega)

end EtuhApp
namespace EtuhApp

theorem Tally.add_assoc (a b c : Tally) : (a.add b).add c = a.add (b.add c) := by
  rw [Tally.eq_iff]; simp; omega

theorem eventBusinessTally_nil (offers : Nat → Option Nat) (b : Nat) :
    eventBusinessTally offers b [] = Tally.zero := rfl

theorem eventBusinessTally_cons (offers : Nat → Option Nat) (b : Nat)
    (e : AnalyticsEvent) (es : List AnalyticsEvent) :
    eventBusinessTally offers b (e :: es)
      = (eventUnitTally offers b e).add (eventBusinessTally offers b es) := rfl

theorem eventBusinessTally_append (offers : Nat → Option Nat) (b : Nat)
    (es1 es2 : List AnalyticsEvent) :
    eventBusinessTally offers b (es1 ++ es2)
      = (eventBusinessTally offers b es1).add (eventBusinessTally offers b es2) := by
  induction es1 with
  | nil => rw [List.nil_append, eventBusinessTally_nil, Tally.zero_add]
  | cons e es ih =>
    rw [List.cons_append, eventBusinessTally_cons, eventBusinessTally_cons, ih,
      Tally.add_assoc]

theorem buildOfferTallies_sum (offers : Nat → Option Nat) (b : Nat)
    (es : List AnalyticsEvent) : ∀ acc : TallyDict,
    offerDictBusinessSum offers (buildOfferTallies es acc) b
      = (offerDictBusinessSum offers acc b).add (eventBusinessTally offers b es) := by
  induction es with
  | nil =>
    intro acc
    rw [eventBusinessTally_nil, Tally.add_zero]
    rfl
  | cons e es ih =>
    intro acc
    unfold buildOfferTallies
    rw [ih, eventBusinessTally_cons, ← Tally.add_assoc]
    congr 1
    unfold eventUnitTally
    cases ho : e.offer_id with
    | none =>
      dsimp only
      rw [Tally.add_zero]
    | some o =>
      dsimp only
      by_cases ht : e.event_type = "view" ∨ e.event_type = "click"
          ∨ e.event_type = "conversion"
      · rw [if_pos ht, dictBump_offerSum]
        by_cases hb : offers o = some b
        · rw [if_pos hb, if_pos hb, if_pos ht, Tally.zero_bump]
        · rw [if_neg hb, if_neg hb]
      · rw [if_neg ht]
        by_cases hb : offers o = some b
        · rw [if_pos hb, if_neg ht, Tally.add_zero]
        · rw [if_neg hb, Tally.add_zero]

theorem buildBusinessStats_sum (offers : Nat → Option Nat) (b : Nat)
    (ot : TallyDict) : ∀ acc : TallyDict,
    dictKeySum (buildBusinessStats offers ot acc) b
      = (dictKeySum acc b).add (offerDictBusinessSum offers ot b) := by
  induction ot with
  | nil =>
    intro acc
    rw [offerDictBusinessSum_nil, Tally.add_zero]
    rfl
  | cons p rest ih =>
    obtain ⟨o, t⟩ := p
    intro acc
    unfold buildBusinessStats
    rw [ih]
    cases ho : offers o with
    | none =>
      dsimp only
      rw [offerDictBusinessSum_cons,
        if_neg (by rw [ho]; exact fun hc => Option.noConfusion hc)]
    | some b1 =>
      dsimp only
      rw [dictAdd_keySum, Tally.add_assoc]
      congr 1
      rw [offerDictBusinessSum_cons]
      by_cases hb : b1 = b
      · rw [if_pos hb, if_pos (by rw [ho, hb])]
      · rw [if_neg hb, if_neg (by rw [ho]; exact fun hc => hb (Option.some_inj.mp hc)),
          Tally.zero_add]

end EtuhApp
namespace EtuhApp

/-- The counter triple stored on one business_analytics row. -/
def rowTally (r : BusinessAnalyticsRow) : Tally :=
  ⟨r.total_views, r.total_clicks, r.total_conversions⟩

/-- At most one business_analytics row per (business_id, date): the invariant
the check-then-insert pattern maintains and a real database enforces. -/
def bizKeyUnique (table : List BusinessAnalyticsRow) : Prop :=
  table.Pairwise (fun r1 r2 => ¬(r1.business_id = r2.business_id ∧ r1.date = r2.date))

theorem businessTotals_nil (b d : Nat) : businessTotals [] b d = Tally.zero := rfl

theorem businessTotals_cons (r : BusinessAnalyticsRow) (rest : List BusinessAnalyticsRow)
    (b d : Nat) :
    businessTotals (r :: rest) b d
      = if r.business_id = b ∧ r.date = d
        then (rowTally r).add (businessTotals rest b d)
        else businessTotals rest b d := rfl

theorem businessTotals_append (l1 l2 : List BusinessAnalyticsRow) (b d : Nat) :
    businessTotals (l1 ++ l2) b d
      = (businessTotals l1 b d).add (businessTotals l2 b d) := by
  induction l1 with
  | nil => rw [List.nil_append, businessTotals_nil, Tally.zero_add]
  | cons r rest ih =>
    rw [List.cons_append, businessTotals_cons, businessTotals_cons]
    by_cases h : r.business_id = b ∧ r.date = d
    · rw [if_pos h, if_pos h, ih, Tally.add_assoc]
    · rw [if_neg h, if_neg h, ih]

theorem businessTotals_zero_of_no_key (l : List BusinessAnalyticsRow) (b d : Nat)
    (h : ∀ r ∈ l, ¬(r.business_id = b ∧ r.date = d)) :
    businessTotals l b d = Tally.zero := by
  induction l with
  | nil => rfl
  | cons r rest ih =>
    rw [businessTotals_cons, if_neg (h r (List.mem_cons_self r rest))]
    exact ih fun r2 hr2 => h r2 (List.mem_cons_of_mem r hr2)

@[simp] theorem bumpBusinessRow_business_id (t : Tally) (r : BusinessAnalyticsRow) :
    (bumpBusinessRow t r).business_id = r.business_id := rfl

@[simp] theorem bumpBusinessRow_date (t : Tally) (r : BusinessAnalyticsRow) :
    (bumpBusinessRow t r).date = r.date := rfl

theorem upd_business_id (b d : Nat) (t : Tally) (r : BusinessAnalyticsRow) :
    (if r.business_id = b ∧ r.date = d then bumpBusinessRow t r else r).business_id
      = r.business_id := by
  by_cases h : r.business_id = b ∧ r.date = d <;> simp [h]

theorem upd_date (b d : Nat) (t : Tally) (r : BusinessAnalyticsRow) :
    (if r.business_id = b ∧ r.date = d then bumpBusinessRow t r else r).date
      = r.date := by
  by_cases h : r.business_id = b ∧ r.date = d <;> simp [h]

theorem totals_map_bump_other_key (b d b2 d2 : Nat) (t : Tally)
    (hk : ¬(b = b2 ∧ d = d2)) (l : List BusinessAnalyticsRow) :
    businessTotals
        (l.map fun r => if r.business_id = b ∧ r.date = d then bumpBusinessRow t r else r)
        b2 d2
      = businessTotals l b2 d2 := by
  induction l with
  | nil => rfl
  | cons r rest ih =>
    rw [List.map_cons, businessTotals_cons, businessTotals_cons]
    by_cases hread : r.business_id = b2 ∧ r.date = d2
    · have hr : ¬(r.business_id = b ∧ r.date = d) := by
        intro hc
        exact hk ⟨by omega, by omega⟩
      rw [if_neg hr, if_pos hread, if_pos hread, ih]
    · have hcond : ¬((if r.business_id = b ∧ r.date = d then bumpBusinessRow t r
          else r).business_id = b2
        ∧ (if r.business_id = b ∧ r.date = d then bumpBusinessRow t r else r).date = d2) := by
        rw [upd_business_id, upd_date]
        exact hread
      rw [if_neg hcond, if_neg hread, ih]

theorem totals_map_bump_same_key (b d : Nat) (t : Tally)
    (l : List BusinessAnalyticsRow) (hu : bizKeyUnique l) :
    businessTotals
        (l.map fun r => if r.business_id = b ∧ r.date = d then bumpBusinessRow t r else r)
        b d
      = (businessTotals l b d).add
          (if l.any (fun r => decide (r.business_id = b ∧ r.date = d)) then t
           else Tally.zero) := by
  induction l with
  | nil =>
    rw [List.map_nil, businessTotals_nil, List.any_nil,
      if_neg (by decide), Tally.add_zero]
  | cons r rest ih =>
    unfold bizKeyUnique at hu
    rw [List.pairwise_cons] at hu
    obtain ⟨hpair, hu_rest⟩ := hu
    rw [List.map_cons, businessTotals_cons, businessTotals_cons, List.any_cons]
    by_cases hr : r.business_id = b ∧ r.date = d
    · have hrest_no : ∀ r2 ∈ rest, ¬(r2.business_id = b ∧ r2.date = d) := by
        intro r2 hr2 hc
        exact hpair r2 hr2 ⟨by omega, by omega⟩
      have hmap_no : ∀ r2 ∈ rest.map fun x =>
          if x.business_id = b ∧ x.date = d then bumpBusinessRow t x else x,
          ¬(r2.business_id = b ∧ r2.date = d) := by
        intro r2 hr2
        obtain ⟨x, hx, hxeq⟩ := List.mem_map.mp hr2
        subst hxeq
        rw [upd_business_id, upd_date]
        exact hrest_no x hx
      have hcond : (if r.business_id = b ∧ r.date = d then bumpBusinessRow t r
            else r).business_id = b
          ∧ (if r.business_id = b ∧ r.date = d then bumpBusinessRow t r else r).date = d := by
        rw [upd_business_id, upd_date]
        exact hr
      rw [if_pos hcond, if_pos hr, businessTotals_zero_of_no_key _ _ _ hmap_no,
        businessTotals_zero_of_no_key _ _ _ hrest_no, if_pos hr, if_pos (by simp [hr])]
      rw [Tally.eq_iff]
      simp [rowTally, bumpBusinessRow]
    · have hcond : ¬((if r.business_id = b ∧ r.date = d then bumpBusinessRow t r
            else r).business_id = b
          ∧ (if r.business_id = b ∧ r.date = d then bumpBusinessRow t r else r).date = d) := by
        rw [upd_business_id, upd_date]
        exact hr
      rw [if_neg hcond, if_neg hr, ih hu_rest]
      have : decide (r.business_id = b ∧ r.date = d) = false := by
        simp [hr]
      rw [this, Bool.false_or]

end EtuhApp
namespace EtuhApp

theorem upsert_totals (table : List BusinessAnalyticsRow) (b d : Nat) (t : Tally)
    (b2 d2 : Nat) (hu : bizKeyUnique table) :
    businessTotals (upsertBusinessStats table b d t) b2 d2
      = (businessTotals table b2 d2).add
          (if b = b2 ∧ d = d2 then t else Tally.zero) := by
  unfold upsertBusinessStats
  by_cases hk : b = b2 ∧ d = d2
  · obtain ⟨hb, hd⟩ := hk
    subst hb
    subst hd
    rw [if_pos (show b = b ∧ d = d from ⟨rfl, rfl⟩)]
    cases hany : table.any (fun r => decide (r.business_id = b ∧ r.date = d))
    · rw [if_neg Bool.false_ne_true, businessTotals_append, businessTotals_cons,
        businessTotals_nil]
      rw [if_pos (show (⟨b, d, t.view, t.click, t.conversion, 0, 0⟩ :
          BusinessAnalyticsRow).business_id = b
        ∧ (⟨b, d, t.view, t.click, t.conversion, 0, 0⟩ :
          BusinessAnalyticsRow).date = d from ⟨rfl, rfl⟩)]
      rw [Tally.eq_iff]
      simp [rowTally]
    · rw [if_pos rfl, totals_map_bump_same_key b d t table hu, hany, if_pos rfl]
  · rw [if_neg hk]
    cases hany : table.any (fun r => decide (r.business_id = b ∧ r.date = d))
    · rw [if_neg Bool.false_ne_true, businessTotals_append, businessTotals_cons,
        businessTotals_nil]
      rw [if_neg (show ¬((⟨b, d, t.view, t.click, t.conversion, 0, 0⟩ :
          BusinessAnalyticsRow).business_id = b2
        ∧ (⟨b, d, t.view, t.click, t.conversion, 0, 0⟩ :
          BusinessAnalyticsRow).date = d2) from hk), Tally.add_zero]
    · rw [if_pos rfl, totals_map_bump_other_key b d b2 d2 t hk table, Tally.add_zero]

theorem upsert_unique (table : List BusinessAnalyticsRow) (b d : Nat) (t : Tally)
    (hu : bizKeyUnique table) : bizKeyUnique (upsertBusinessStats table b d t) := by
  unfold upsertBusinessStats
  cases hany : table.any (fun r => decide (r.business_id = b ∧ r.date = d))
  · simp only [Bool.false_eq_true, if_false]
    unfold bizKeyUnique at hu ⊢
    rw [List.pairwise_append]
    refine ⟨hu, List.pairwise_singleton _ _, ?_⟩
    intro a ha x hx
    rw [List.mem_singleton] at hx
    subst hx
    intro hc
    have hfa := List.any_eq_false.mp hany a ha
    rw [decide_eq_true_iff] at hfa
    exact hfa hc
  · simp only [if_true]
    unfold bizKeyUnique at hu ⊢
    rw [List.pairwise_map]
    exact hu.imp fun h => by
      rw [upd_business_id, upd_date, upd_business_id, upd_date]
      exact h

theorem applyStats_unique (dd : Nat) (stats : TallyDict) :
    ∀ table : List BusinessAnalyticsRow, bizKeyUnique table →
      bizKeyUnique (applyBusinessStats dd stats table) := by
  induction stats with
  | nil => intro table hu; exact hu
  | cons p rest ih =>
    obtain ⟨b1, t1⟩ := p
    intro table hu
    unfold applyBusinessStats
    dsimp only
    by_cases hz : t1.isNonzero
    · rw [if_pos hz]
      exact ih _ (upsert_unique table b1 dd t1 hu)
    · rw [if_neg hz]
      exact ih _ hu

theorem applyStats_totals (dd : Nat) (stats : TallyDict) :
    ∀ table : List BusinessAnalyticsRow, bizKeyUnique table → ∀ b2 d2 : Nat,
      businessTotals (applyBusinessStats dd stats table) b2 d2
        = (businessTotals table b2 d2).add
            (if d2 = dd then dictKeySum stats b2 else Tally.zero) := by
  induction stats with
  | nil =>
    intro table hu b2 d2
    have hz : (if d2 = dd then dictKeySum [] b2 else Tally.zero) = Tally.zero := by
      by_cases h : d2 = dd <;> simp [h, dictKeySum_nil]
    rw [hz, Tally.add_zero]
    rfl
  | cons p rest ih =>
    obtain ⟨b1, t1⟩ := p
    intro table hu b2 d2
    unfold applyBusinessStats
    dsimp only
    by_cases hz : t1.isNonzero
    · rw [if_pos hz, ih _ (upsert_unique table b1 dd t1 hu) b2 d2,
        upsert_totals table b1 dd t1 b2 d2 hu, Tally.add_assoc, dictKeySum_cons]
      congr 1
      by_cases hd : d2 = dd
      · subst hd
        by_cases hb : b1 = b2
        · rw [if_pos ⟨hb, rfl⟩, if_pos rfl, if_pos rfl, if_pos hb]
        · rw [if_neg (fun hc => hb hc.1), if_pos rfl, if_pos rfl, if_neg hb,
            Tally.zero_add]
      · rw [if_neg (fun hc => hd hc.2.symm), if_neg hd, if_neg hd, Tally.add_zero]
    · rw [if_neg hz, ih _ hu b2 d2]
      congr 1
      have ht0 : t1 = Tally.zero := Tally.eq_zero_of_not_nonzero t1 hz
      subst ht0
      rw [dictKeySum_cons]
      by_cases hd : d2 = dd
      · by_cases hb : b1 = b2
        · rw [if_pos hd, if_pos hd, if_pos hb, Tally.zero_add]
        · rw [if_pos hd, if_pos hd, if_neg hb]
      · rw [if_neg hd, if_neg hd]

theorem batch_totals (offers : Nat → Option Nat) (es : List AnalyticsEvent)
    (dd : Nat) (s : AnalyticsState) (hu : bizKeyUnique s.business_analytics)
    (b2 d2 : Nat) :
    businessTotals (batch_track_events offers es dd s).business_analytics b2 d2
      = (businessTotals s.business_analytics b2 d2).add
          (if d2 = dd then eventBusinessTally offers b2 es else Tally.zero) := by
  unfold batch_track_events
  by_cases he : es = []
  · rw [if_pos he]
    subst he
    have hz : (if d2 = dd then eventBusinessTally offers b2 [] else Tally.zero)
        = Tally.zero := by
      by_cases h : d2 = dd <;> simp [h, eventBusinessTally_nil]
    rw [hz, Tally.add_zero]
  · rw [if_neg he]
    dsimp only
    by_cases hbu : buildOfferTallies es [] = []
    · rw [if_pos hbu]
      have h4 := buildOfferTallies_sum offers b2 es []
      rw [hbu, offerDictBusinessSum_nil, Tally.zero_add] at h4
      have hz : (if d2 = dd then eventBusinessTally offers b2 es else Tally.zero)
          = Tally.zero := by
        by_cases h : d2 = dd <;> simp [h, ← h4]
      rw [hz, Tally.add_zero]
    · rw [if_neg hbu]
      dsimp only
      rw [applyStats_totals dd _ _ hu b2 d2]
      congr 1
      by_cases hd : d2 = dd
      · rw [if_pos hd, if_pos hd, buildBusinessStats_sum, dictKeySum_nil,
          Tally.zero_add, buildOfferTallies_sum, offerDictBusinessSum_nil,
          Tally.zero_add]
      · rw [if_neg hd, if_neg hd]

theorem batch_unique (offers : Nat → Option Nat) (es : List AnalyticsEvent)
    (dd : Nat) (s : AnalyticsState) (hu : bizKeyUnique s.business_analytics) :
    bizKeyUnique (batch_track_events offers es dd s).business_analytics := by
  unfold batch_track_events
  by_cases he : es = []
  · rw [if_pos he]
    exact hu
  · rw [if_neg he]
    dsimp only
    by_cases hbu : buildOfferTallies es [] = []
    · rw [if_pos hbu]
      exact hu
    · rw [if_neg hbu]
      exact applyStats_unique dd _ _ hu

/-- C5: splitting a batch of events into two consecutive ingest calls on the
same day yields the same final per-business aggregate totals (total_views,
total_clicks, total_conversions) as one call with all events combined,
starting from any aggregate state with at most one row per
(business_id, date). -/
theorem C5_batch_split_equals_combined (offers : Nat → Option Nat) (es1 es2 : List AnalyticsEvent)
    (dd : Nat) (s : AnalyticsState) (hu : bizKeyUnique s.business_analytics)
    (b2 d2 : Nat) :
    businessTotals
        (batch_track_events offers es2 dd (batch_track_events offers es1 dd s)).business_analytics
        b2 d2
      = businessTotals (batch_track_events offers (es1 ++ es2) dd s).business_analytics
          b2 d2 := by
  rw [batch_totals offers es2 dd _ (batch_unique offers es1 dd s hu) b2 d2,
    batch_totals offers es1 dd s hu b2 d2,
    batch_totals offers (es1 ++ es2) dd s hu b2 d2,
    eventBusinessTally_append]
  by_cases hd : d2 = dd
  · rw [if_pos hd, if_pos hd, if_pos hd, Tally.add_assoc]
  · rw [if_neg hd, if_neg hd, if_neg hd, Tally.add_zero, Tally.add_zero]

end EtuhApp

namespace EtuhApp

/-- C5 witness: the theorem instantiated with one view and one click event for
offer 1 (owned by business 7) on the empty state, read back for business 7 on
day 0. -/
theorem C5_batch_split_equals_combined_witness :
    businessTotals
        (batch_track_events (fun o => if o = 1 then some 7 else none)
          [{ event_type := "click", session_id := none, user_id := none,
             offer_id := some 1, metadata := none, ip_address := none,
             user_agent := none }] 0
          (batch_track_events (fun o => if o = 1 then some 7 else none)
            [{ event_type := "view", session_id := none, user_id := none,
               offer_id := some 1, metadata := none, ip_address := none,
               user_agent := none }] 0
            { events := [], business_analytics := [] })).business_analytics 7 0
      = businessTotals
          (batch_track_events (fun o => if o = 1 then some 7 else none)
            ([{ event_type := "view", session_id := none, user_id := none,
                offer_id := some 1, metadata := none, ip_address := none,
                user_agent := none }]
              ++ [{ event_type := "click", session_id := none, user_id := none,
                    offer_id := some 1, metadata := none, ip_address := none,
                    user_agent := none }]) 0
            { events := [], business_analytics := [] }).business_analytics 7 0 :=
  C5_batch_split_equals_combined (fun o => if o = 1 then some 7 else none) _ _ 0
    { events := [], business_analytics := [] } List.Pairwise.nil 7 0

end EtuhApp
